import Mathlib

/-!
Verification of the redwood repository slice: the Apollo GraphQL provider
(`index.js` of the web package, given as `src/unnamed/part_000`) and the
`create-redwood-app` CLI scaffolder
(`src/packages/create-redwood-app/src/create-redwood-app.js`).

The JavaScript is shallowly embedded: JS objects built by spread syntax are
modelled as association lists where a later entry shadows an earlier one
(`jsLookup` scans left to right keeping the last match, exactly the semantics
of `{ ...a, ...b }`), promises are modelled by their resolved values, and the
sequential Listr task run is modelled as a total function from flags and an
environment (filesystem facts, subprocess outcomes) to a run record.
-/

/-! ## JS object semantics: spread and property lookup -/

/-- Property lookup in an object built by object-spread: the LAST entry with
the key wins, as in `{ ...a, ...b }` where `b` shadows `a`. -/
def jsLookup {α : Type} (obj : List (String × α)) (k : String) : Option α :=
  obj.foldl (fun acc p => if p.1 = k then some p.2 else acc) none

/-! ## Apollo provider (src/unnamed/part_000) -/

/-- Apollo links, as assembled by `ApolloProviderWithFetchConfig`:
the `setContext` token link, the auth-header middleware, the terminating
`HttpLink` with its uri, `ApolloLink.from` chains, and opaque user links. -/
inductive ApolloLinkV : Type where
  | withTokenLink : ApolloLinkV
  | authMiddlewareLink : ApolloLinkV
  | httpLinkV : String → ApolloLinkV
  | fromChain : List ApolloLinkV → ApolloLinkV
  | userOpaque : Nat → ApolloLinkV

/-- The value of `useAuth()` as consumed by the provider: `isAuthenticated`,
an optional async `getToken` (modelled by its resolved value, which may be
null), and the provider `type` label. -/
structure AuthV : Type where
  isAuthenticated : Bool
  getToken : Option (Option String)
  type : String

/-- The `withToken` link body (`setContext(async () => ...)`):
`if (isAuthenticated && getToken) return { token: await getToken() };
return { token: null }`. -/
def tokenContext (auth : AuthV) : Option String :=
  match auth.isAuthenticated, auth.getToken with
  | true, some t => t
  | true, none => none
  | false, _ => none

/-- JS truthiness of the context `token` value: `null`/`undefined` and the
empty string are falsy, every other string is truthy. -/
def strTruthy : Option String → Bool
  | some s => s != ""
  | none => false

/-- The `authHeaders` object of `authMiddleware`:
`token ? { 'auth-provider': type, authorization: 'Bearer ' + token } : {}`. -/
def authHeaders (ty : String) (token : Option String) : List (String × String) :=
  if strTruthy token then
    match token with
    | some t => [("auth-provider", ty), ("authorization", "Bearer " ++ t)]
    | none => []
  else []

/-- The headers set on the operation by `authMiddleware`:
`{ ...headers, ...authHeaders }` where `headers` comes from `useFetchConfig`. -/
def requestHeaders (base : List (String × String)) (ty : String)
    (token : Option String) : List (String × String) :=
  base ++ authHeaders ty token

/-- The Redwood-built link: `ApolloLink.from([withToken, authMiddleware, httpLink])`
with `httpLink = new HttpLink({ uri })`. -/
def rwLink (uri : String) : ApolloLinkV :=
  ApolloLinkV.fromChain
    [ApolloLinkV.withTokenLink, ApolloLinkV.authMiddlewareLink, ApolloLinkV.httpLinkV uri]

/-- The `link` field of `GraphQLClientConfigProp`: either a function of the
Redwood link or a plain link. -/
inductive UserLinkV : Type where
  | func : (ApolloLinkV → ApolloLinkV) → UserLinkV
  | plain : ApolloLinkV → UserLinkV

/-- Values appearing in the Apollo client options object: the `link`, the
`cache` (an `InMemoryCache` built from an optional cache config), or any other
option value, abstracted as a string. -/
inductive OptVal : Type where
  | link : ApolloLinkV → OptVal
  | cache : Option String → OptVal
  | raw : String → OptVal

/-- `GraphQLClientConfigProp`: dedicated `cacheConfig` and `link` fields plus
the remaining Apollo client options (`Omit<ApolloClientOptions, 'cache' | 'link'>`),
kept as a raw key/value list. -/
structure GraphQLClientConfig : Type where
  cacheConfig : Option String
  link : Option UserLinkV
  rest : List (String × OptVal)

/-- Link selection (`const { link: userLink, ... } = config ?? {}` followed by
`if (userLink) link = typeof userLink === 'function' ? userLink(rwLink) : userLink`);
an absent field is the only falsy possibility for a value of the declared type. -/
def chooseLink (cfg : GraphQLClientConfig) (rw : ApolloLinkV) : ApolloLinkV :=
  match cfg.link with
  | none => rw
  | some (UserLinkV.func f) => f rw
  | some (UserLinkV.plain l) => l

/-- The provider's `defaultOptions` literal (watchQuery: cache-and-network,
notifyOnNetworkStatusChange), abstracted to an opaque option value. -/
def rwDefaultOptions : OptVal :=
  OptVal.raw "watchQuery: cache-and-network, notifyOnNetworkStatusChange"

/-- The options object passed to `new ApolloClient({...})`:
`{ link, cache: new InMemoryCache(cacheConfig), defaultOptions: {...}, ...rest }`.
`rest` is spread last, so it shadows earlier entries on key collision. -/
def buildClientOptions (cfg : GraphQLClientConfig) (rw : ApolloLinkV) :
    List (String × OptVal) :=
  [("link", OptVal.link (chooseLink cfg rw)),
   ("cache", OptVal.cache cfg.cacheConfig),
   ("defaultOptions", rwDefaultOptions)] ++ cfg.rest

/-! ### Lookup lemmas for spread objects -/

theorem jsLookup_foldl_step {α : Type} (k : String) (ys : List (String × α))
    (acc : Option α) :
    ys.foldl (fun a p => if p.1 = k then some p.2 else a) acc =
      match jsLookup ys k with
      | some v => some v
      | none => acc := by
  induction ys generalizing acc with
  | nil => simp [jsLookup]
  | cons y ys ih =>
      simp only [jsLookup, List.foldl_cons] at *
      rw [ih, ih (if y.1 = k then some y.2 else none)]
      cases hf : List.foldl (fun a p => if p.1 = k then some p.2 else a) none ys with
      | none => by_cases h : y.1 = k <;> simp [h]
      | some v => simp

theorem jsLookup_append {α : Type} (xs ys : List (String × α)) (k : String) :
    jsLookup (xs ++ ys) k =
      match jsLookup ys k with
      | some v => some v
      | none => jsLookup xs k := by
  simp only [jsLookup, List.foldl_append]
  exact jsLookup_foldl_step k ys _

/-! ## CLI scaffolder (src/packages/create-redwood-app/src/create-redwood-app.js) -/

/-- The CLI flags parsed by yargs: `--yarn-install` (default true),
`--typescript`/`--ts` (default false), `--overwrite` (default false). -/
structure Flags : Type where
  yarnInstall : Bool
  typescript : Bool
  overwrite : Bool

/-- One entry of `result.versions` from `check-node-version`: the dependency
name, whether its requirement is satisfied, the installed version, and the
wanted range. -/
structure DepStatus : Type where
  name : String
  isSatisfied : Bool
  version : String
  wanted : String

/-- The environment a run observes: the resolved target path, the initial
filesystem facts, the `check-node-version` result, and whether each spawned
subprocess command succeeds. -/
structure Env : Type where
  newAppDir : String
  appDirExists : Bool
  appDirEntries : Nat
  resultIsSatisfied : Bool
  versions : List DepStatus
  installSucceeds : Bool
  tsToJsSucceeds : Bool
  genTypesSucceeds : Bool

/-- Identifiers for the five task bodies, flattened from the nested Listr
lists in source order. -/
inductive TaskId : Type where
  | checkVersions : TaskId
  | createDirectory : TaskId
  | yarnInstallTask : TaskId
  | tsToJsTask : TaskId
  | genTypesTask : TaskId
deriving DecidableEq

/-- Everything observable about one process run: which task bodies executed
(in order), which subprocess commands were spawned (in order), whether
`fs.copySync` ran, the final exit code, the error text printed (if any), the
partial-creation warning, the usage hint, the task whose promise rejected (if
any), whether the success banner printed, and whether the target directory
exists when the process ends. -/
structure RunResult : Type where
  trace : List TaskId
  subprocs : List String
  copied : Bool
  exitCode : Nat
  errorPrinted : Option String
  warningPrinted : Bool
  usagePrinted : Bool
  failedTask : Option TaskId
  successBanner : Bool
  dirExistsAtEnd : Bool

/-- One failure line per unsatisfied dependency:
`` `${name} ${wanted} required, but you have ${version}` `` (the chalk
styling wrappers carry no content and are dropped). -/
def depFailureMessage (d : DepStatus) : String :=
  d.name ++ " " ++ d.wanted ++ " required, but you have " ++ d.version

/-- The `logStatements` built from the unsatisfied entries of
`result.versions`: filter the unsatisfied names, map each to its message. -/
def failureMessages (vs : List DepStatus) : List String :=
  (vs.filter (fun d => !d.isSatisfied)).map depFailureMessage

/-- The single error the version-check task rejects with: the per-dependency
messages, then the documentation pointer lines, joined with newlines. -/
def versionCheckError (vs : List DepStatus) : String :=
  String.intercalate "\n"
    (failureMessages vs ++
      ["\nVisit requirements documentation:",
       "https://learn.redwoodjs.com/docs/tutorial/prerequisites/#nodejs-and-yarn-versions\n"])

/-- The error printed before `process.exit(1)` when the target directory
pre-exists non-empty without `--overwrite`. -/
def alreadyExistsError (dir : String) : String :=
  "'" ++ dir ++ "' already exists and is not empty"

/-- The error an `execa` subprocess rejects with when the command fails. -/
def execaError (cmd : String) : String :=
  "Command failed: " ++ cmd

/-- The fixed source order of the five task bodies:
check versions, create/copy directory, yarn install, ts-to-js conversion,
generate types. -/
def fixedTaskOrder : List TaskId :=
  [TaskId.checkVersions, TaskId.createDirectory, TaskId.yarnInstallTask,
   TaskId.tsToJsTask, TaskId.genTypesTask]

/-- The Listr run (`new Listr([...], { exitOnError: true }).run()` plus the
`.then`/`.catch` handlers), flattened over the nested sub-lists. Each `if`
mirrors one task in source order:
the version check runs unless skipped (`yarnInstall === false`) and rejects
when `result.isSatisfied` is false; the directory task calls
`process.exit(1)` when the target pre-exists non-empty without `--overwrite`
and otherwise runs `fs.copySync`; `yarn install` is skipped when
`yarnInstall === false`; the ts-to-js task is enabled only when
`typescript === false && yarnInstall === true`; the type-generation task is
skipped when `yarnInstall === false`. A rejection aborts the remaining tasks
(`exitOnError`) and reaches `.catch`, which prints the error, prints the
partial-creation warning exactly when `fs.existsSync(newAppDir)`, and calls
`process.exit(1)`; completion reaches `.then`, which prints the banner. -/
def runTasks (fl : Flags) (env : Env) : RunResult :=
  let t1trace : List TaskId := if fl.yarnInstall then [TaskId.checkVersions] else []
  if fl.yarnInstall && !env.resultIsSatisfied then
    { trace := [TaskId.checkVersions], subprocs := [], copied := false,
      exitCode := 1, errorPrinted := some (versionCheckError env.versions),
      warningPrinted := env.appDirExists, usagePrinted := false,
      failedTask := some TaskId.checkVersions, successBanner := false,
      dirExistsAtEnd := env.appDirExists }
  else if env.appDirExists && !fl.overwrite && decide (0 < env.appDirEntries) then
    { trace := t1trace ++ [TaskId.createDirectory], subprocs := [],
      copied := false, exitCode := 1,
      errorPrinted := some (alreadyExistsError env.newAppDir),
      warningPrinted := false, usagePrinted := false, failedTask := none,
      successBanner := false, dirExistsAtEnd := env.appDirExists }
  else
    let trace2 := t1trace ++ [TaskId.createDirectory]
    if fl.yarnInstall && !env.installSucceeds then
      { trace := trace2 ++ [TaskId.yarnInstallTask],
        subprocs := ["yarn install"], copied := true, exitCode := 1,
        errorPrinted := some (execaError "yarn install"),
        warningPrinted := true, usagePrinted := false,
        failedTask := some TaskId.yarnInstallTask, successBanner := false,
        dirExistsAtEnd := true }
    else
      let trace3 := trace2 ++ (if fl.yarnInstall then [TaskId.yarnInstallTask] else [])
      let sub3 : List String := if fl.yarnInstall then ["yarn install"] else []
      if (!fl.typescript && fl.yarnInstall) && !env.tsToJsSucceeds then
        { trace := trace3 ++ [TaskId.tsToJsTask],
          subprocs := sub3 ++ ["yarn rw ts-to-js"], copied := true,
          exitCode := 1, errorPrinted := some (execaError "yarn rw ts-to-js"),
          warningPrinted := true, usagePrinted := false,
          failedTask := some TaskId.tsToJsTask, successBanner := false,
          dirExistsAtEnd := true }
      else
        let trace4 := trace3 ++
          (if !fl.typescript && fl.yarnInstall then [TaskId.tsToJsTask] else [])
        let sub4 := sub3 ++
          (if !fl.typescript && fl.yarnInstall then ["yarn rw ts-to-js"] else [])
        if fl.yarnInstall && !env.genTypesSucceeds then
          { trace := trace4 ++ [TaskId.genTypesTask],
            subprocs := sub4 ++ ["yarn rw-gen"], copied := true, exitCode := 1,
            errorPrinted := some (execaError "yarn rw-gen"),
            warningPrinted := true, usagePrinted := false,
            failedTask := some TaskId.genTypesTask, successBanner := false,
            dirExistsAtEnd := true }
        else
          let trace5 := trace4 ++ (if fl.yarnInstall then [TaskId.genTypesTask] else [])
          let sub5 := sub4 ++ (if fl.yarnInstall then ["yarn rw-gen"] else [])
          { trace := trace5, subprocs := sub5, copied := true, exitCode := 0,
            errorPrinted := none, warningPrinted := false,
            usagePrinted := false, failedTask := none, successBanner := true,
            dirExistsAtEnd := true }

/-- JS `String(args)` on the yargs positional array: elements joined with a
comma (`Array.prototype.toString`). -/
def jsStringOfArray : List String → String
  | [] => ""
  | [a] => a
  | a :: rest => a ++ "," ++ jsStringOfArray rest

/-- `.replace(/,/g, '-')`: every comma becomes a dash. -/
def replaceCommas (s : String) : String :=
  String.mk (s.data.map (fun c => if c = ',' then '-' else c))

/-- `const targetDir = String(args).replace(/,/g, '-')`. -/
def targetDir (args : List String) : String :=
  replaceCommas (jsStringOfArray args)

/-- The whole entry point: the `if (!targetDir)` prologue (usage hint and
`process.exit(1)` on an empty target), then the Listr run. -/
def scaffolderMain (args : List String) (fl : Flags) (env : Env) : RunResult :=
  if targetDir args = "" then
    { trace := [], subprocs := [], copied := false, exitCode := 1,
      errorPrinted := some "Please specify the project directory",
      warningPrinted := false, usagePrinted := true, failedTask := none,
      successBanner := false, dirExistsAtEnd := env.appDirExists }
  else runTasks fl env

/-- Modelled from the spec: the claim's wording for how multiple positional
arguments combine — the arguments "joined with '-' into a single target
directory name". Compared with `targetDir`, which is translated from the
source. -/
def specDashJoined : List String → String
  | [] => ""
  | [a] => a
  | a :: rest => a ++ "-" ++ specDashJoined rest

/-! ## Theorems: Apollo provider claims -/

theorem jsLookup_eq_none {α : Type} (l : List (String × α)) (k : String) :
    (∀ p ∈ l, p.1 ≠ k) → jsLookup l k = none := by
  induction l with
  | nil => intro _; rfl
  | cons x xs ih =>
      intro h
      have hx : x.1 ≠ k := h x (List.mem_cons_self x xs)
      simp only [jsLookup, List.foldl_cons, if_neg hx]
      exact ih (fun p hp => h p (List.mem_cons_of_mem x hp))

/-- Claim C1: through the provider's link chain, a request's headers carry
both `authorization: Bearer <token>` and `auth-provider: <type>` when the
resolved context token is present (a truthy JS string), and neither header
when it is not; the token context resolves to null whenever the user is
unauthenticated or no token getter is supplied. The base fetch-config
headers are assumed not to carry either key themselves. -/
theorem c1_auth_headers (auth : AuthV) (base : List (String × String))
    (hb1 : jsLookup base "authorization" = none)
    (hb2 : jsLookup base "auth-provider" = none) :
    (∀ t, tokenContext auth = some t → t ≠ "" →
      jsLookup (requestHeaders base auth.type (tokenContext auth)) "authorization"
          = some ("Bearer " ++ t) ∧
      jsLookup (requestHeaders base auth.type (tokenContext auth)) "auth-provider"
          = some auth.type) ∧
    (strTruthy (tokenContext auth) = false →
      jsLookup (requestHeaders base auth.type (tokenContext auth)) "authorization" = none ∧
      jsLookup (requestHeaders base auth.type (tokenContext auth)) "auth-provider" = none) ∧
    ((auth.isAuthenticated = false ∨ auth.getToken = none) → tokenContext auth = none) := by
  refine ⟨?_, ?_, ?_⟩
  · intro t ht hne
    have htr : strTruthy (some t) = true := by
      simp only [strTruthy, bne_iff_ne, ne_eq]
      exact hne
    rw [requestHeaders, ht]
    simp [authHeaders, htr, jsLookup_append, jsLookup]
  · intro hfalse
    rw [requestHeaders]
    have hnil : authHeaders auth.type (tokenContext auth) = [] := by
      simp [authHeaders, hfalse]
    rw [hnil, List.append_nil]
    exact ⟨hb1, hb2⟩
  · intro h
    cases h with
    | inl h1 => simp [tokenContext, h1]
    | inr h2 =>
        rw [tokenContext, h2]
        cases auth.isAuthenticated <;> rfl

theorem c1_auth_headers_witness :
    jsLookup (requestHeaders [] "custom"
        (tokenContext ⟨true, some (some "tok"), "custom"⟩)) "authorization"
      = some ("Bearer " ++ "tok") := by
  have h := c1_auth_headers ⟨true, some (some "tok"), "custom"⟩ [] rfl rfl
  exact (h.1 "tok" rfl (by decide)).1

/-- Claim C9: if the config's `link` field is a function, the client link is
that function applied to the Redwood-built link (withToken, then
authMiddleware, then the HTTP terminating link, in that order); if it is a
plain link value, that value is used unchanged; if it is absent, the
Redwood-built link is used. -/
theorem c9_link_selection (cfg : GraphQLClientConfig) (uri : String) :
    (cfg.link = none → chooseLink cfg (rwLink uri) =
      ApolloLinkV.fromChain [ApolloLinkV.withTokenLink, ApolloLinkV.authMiddlewareLink,
        ApolloLinkV.httpLinkV uri]) ∧
    (∀ f, cfg.link = some (UserLinkV.func f) →
      chooseLink cfg (rwLink uri) = f (rwLink uri)) ∧
    (∀ l, cfg.link = some (UserLinkV.plain l) →
      chooseLink cfg (rwLink uri) = l) := by
  refine ⟨fun h => ?_, fun f h => ?_, fun l h => ?_⟩ <;>
    simp [chooseLink, rwLink, h]

theorem c9_link_selection_witness :
    chooseLink ⟨none, none, []⟩ (rwLink "http://localhost:8911/graphql") =
      ApolloLinkV.fromChain [ApolloLinkV.withTokenLink, ApolloLinkV.authMiddlewareLink,
        ApolloLinkV.httpLinkV "http://localhost:8911/graphql"] :=
  (c9_link_selection ⟨none, none, []⟩ "http://localhost:8911/graphql").1 rfl

/-- Claim C5: any Apollo client option supplied in the config overrides the
provider's defaults in the constructed options (the rest of the config is
spread last), while the cache and link cannot be set directly: the `cache`
entry is always the `InMemoryCache` built from the dedicated `cacheConfig`
field and the `link` entry always comes from the dedicated `link` field.
The TS type `Omit<ApolloClientOptions, 'cache' | 'link'>` guarantees the
rest carries no `cache` or `link` key, stated here as a hypothesis. -/
theorem c5_config_overrides (cfg : GraphQLClientConfig) (rw : ApolloLinkV)
    (hres : ∀ p ∈ cfg.rest, p.1 ≠ "cache" ∧ p.1 ≠ "link") :
    jsLookup (buildClientOptions cfg rw) "cache" = some (OptVal.cache cfg.cacheConfig) ∧
    jsLookup (buildClientOptions cfg rw) "link" = some (OptVal.link (chooseLink cfg rw)) ∧
    (∀ k v, jsLookup cfg.rest k = some v →
      jsLookup (buildClientOptions cfg rw) k = some v) := by
  have hcache : jsLookup cfg.rest "cache" = none :=
    jsLookup_eq_none _ _ (fun p hp => (hres p hp).1)
  have hlink : jsLookup cfg.rest "link" = none :=
    jsLookup_eq_none _ _ (fun p hp => (hres p hp).2)
  refine ⟨?_, ?_, fun k v hv => ?_⟩
  · rw [buildClientOptions, jsLookup_append, hcache]
    simp [jsLookup]
  · rw [buildClientOptions, jsLookup_append, hlink]
    simp [jsLookup]
  · rw [buildClientOptions, jsLookup_append, hv]

theorem c5_config_overrides_witness :
    jsLookup (buildClientOptions
        ⟨some "cacheCfg", none, [("connectToDevTools", OptVal.raw "true")]⟩
        (ApolloLinkV.userOpaque 0)) "cache" = some (OptVal.cache (some "cacheCfg")) :=
  (c5_config_overrides
    ⟨some "cacheCfg", none, [("connectToDevTools", OptVal.raw "true")]⟩
    (ApolloLinkV.userOpaque 0) (by decide)).1

/-! ## Theorems: scaffolder claims -/

/-- Claim C7: invoking the scaffolder with no positional project-directory
argument prints the usage hint and exits with code 1 without running any
task or subprocess. -/
theorem c7_no_args_usage (fl : Flags) (env : Env) :
    (scaffolderMain [] fl env).exitCode = 1 ∧
    (scaffolderMain [] fl env).usagePrinted = true ∧
    (scaffolderMain [] fl env).trace = [] ∧
    (scaffolderMain [] fl env).subprocs = [] :=
  ⟨rfl, rfl, rfl, rfl⟩

/-- Claim C2: when the target directory already exists, is non-empty, and
`--overwrite` was not given, the process exits with code 1 after printing an
error and before `fs.copySync` has run. -/
theorem c2_existing_nonempty_dir (fl : Flags) (env : Env)
    (hex : env.appDirExists = true) (hne : 0 < env.appDirEntries)
    (hov : fl.overwrite = false) :
    (runTasks fl env).exitCode = 1 ∧
    (runTasks fl env).copied = false ∧
    (runTasks fl env).errorPrinted ≠ none := by
  cases hyi : fl.yarnInstall <;> cases hsat : env.resultIsSatisfied <;>
    simp [runTasks, hyi, hsat, hex, hov, hne]

theorem c2_existing_nonempty_dir_witness :
    (runTasks ⟨true, false, false⟩
      ⟨"/tmp/redwood-app", true, 3, true, [], true, true, true⟩).exitCode = 1 ∧
    (runTasks ⟨true, false, false⟩
      ⟨"/tmp/redwood-app", true, 3, true, [], true, true, true⟩).copied = false := by
  have h := c2_existing_nonempty_dir ⟨true, false, false⟩
    ⟨"/tmp/redwood-app", true, 3, true, [], true, true, true⟩ rfl (by decide) rfl
  exact ⟨h.1, h.2.1⟩

/-- Claim C3: with the yarn-install flag false (`--no-yarn-install`), the
'yarn install' task body and the type-generation task body are both skipped
and neither of their subprocess commands is spawned. -/
theorem c3_no_yarn_install (fl : Flags) (env : Env)
    (h : fl.yarnInstall = false) :
    TaskId.yarnInstallTask ∉ (runTasks fl env).trace ∧
    TaskId.genTypesTask ∉ (runTasks fl env).trace ∧
    "yarn install" ∉ (runTasks fl env).subprocs ∧
    "yarn rw-gen" ∉ (runTasks fl env).subprocs := by
  cases hex : env.appDirExists <;> cases hov : fl.overwrite <;>
    cases hen : decide (0 < env.appDirEntries) <;>
      simp [runTasks, h, hex, hov, hen]

theorem c3_no_yarn_install_witness :
    TaskId.yarnInstallTask ∉ (runTasks ⟨false, false, false⟩
      ⟨"/tmp/redwood-app", false, 0, true, [], true, true, true⟩).trace :=
  (c3_no_yarn_install ⟨false, false, false⟩
    ⟨"/tmp/redwood-app", false, 0, true, [], true, true, true⟩ rfl).1

/-- Claim C6: when the version requirements are not satisfied (and the check
is not skipped), the check task rejects with the single joined error; one
failure message is produced per unsatisfied dependency, naming the
dependency, the wanted range and the installed version, and satisfied
dependencies contribute no message. -/
theorem c6_version_failure_messages (fl : Flags) (env : Env)
    (hy : fl.yarnInstall = true) (hs : env.resultIsSatisfied = false) :
    (runTasks fl env).failedTask = some TaskId.checkVersions ∧
    (runTasks fl env).errorPrinted = some (versionCheckError env.versions) ∧
    (failureMessages env.versions).length
      = (env.versions.filter (fun d => !d.isSatisfied)).length ∧
    (∀ d ∈ env.versions, d.isSatisfied = false →
      depFailureMessage d ∈ failureMessages env.versions) := by
  refine ⟨?_, ?_, ?_, ?_⟩
  · simp [runTasks, hy, hs]
  · simp [runTasks, hy, hs]
  · simp [failureMessages]
  · intro d hd hds
    unfold failureMessages
    exact List.mem_map_of_mem _ (List.mem_filter.mpr ⟨hd, by simp [hds]⟩)

theorem c6_version_failure_messages_witness :
    (runTasks ⟨true, false, false⟩
      ⟨"/tmp/redwood-app", false, 0, false,
        [⟨"node", false, "10.0.0", ">=12"⟩, ⟨"yarn", true, "1.22.0", ">=1.15"⟩],
        true, true, true⟩).failedTask = some TaskId.checkVersions ∧
    depFailureMessage ⟨"node", false, "10.0.0", ">=12"⟩ ∈
      failureMessages
        [⟨"node", false, "10.0.0", ">=12"⟩, ⟨"yarn", true, "1.22.0", ">=1.15"⟩] := by
  have h := c6_version_failure_messages ⟨true, false, false⟩
    ⟨"/tmp/redwood-app", false, 0, false,
      [⟨"node", false, "10.0.0", ">=12"⟩, ⟨"yarn", true, "1.22.0", ">=1.15"⟩],
      true, true, true⟩ rfl rfl
  exact ⟨h.1, h.2.2.2 _ (List.mem_cons_self _ _) rfl⟩

/-- Claim C4: whenever some task rejects, the remaining tasks are aborted
(the failing task is the last entry of the execution trace), the error is
printed, the process exits with code 1, and the partial-creation warning is
printed exactly when the target directory exists at failure time. -/
theorem c4_failure_aborts (fl : Flags) (env : Env) (t : TaskId)
    (h : (runTasks fl env).failedTask = some t) :
    (runTasks fl env).exitCode = 1 ∧
    (runTasks fl env).errorPrinted ≠ none ∧
    (runTasks fl env).trace.getLast? = some t ∧
    (runTasks fl env).warningPrinted = (runTasks fl env).dirExistsAtEnd := by
  cases hyi : fl.yarnInstall <;> cases hts : fl.typescript <;>
  cases how : fl.overwrite <;> cases hex : env.appDirExists <;>
  cases hsat : env.resultIsSatisfied <;> cases hin : env.installSucceeds <;>
  cases htj : env.tsToJsSucceeds <;> cases hgt : env.genTypesSucceeds <;>
  cases hen : decide (0 < env.appDirEntries) <;>
  simp_all [runTasks]

theorem c4_failure_aborts_witness :
    (runTasks ⟨true, true, false⟩
      ⟨"/tmp/redwood-app", false, 0, true, [], false, true, true⟩).exitCode = 1 ∧
    (runTasks ⟨true, true, false⟩
      ⟨"/tmp/redwood-app", false, 0, true, [], false, true, true⟩).warningPrinted
      = (runTasks ⟨true, true, false⟩
          ⟨"/tmp/redwood-app", false, 0, true, [], false, true, true⟩).dirExistsAtEnd := by
  have h := c4_failure_aborts ⟨true, true, false⟩
    ⟨"/tmp/redwood-app", false, 0, true, [], false, true, true⟩
    TaskId.yarnInstallTask rfl
  exact ⟨h.1, h.2.2.2⟩

/-- Claim C8: the run executes its task bodies in the fixed linear order
check versions, copy template, yarn install, optional ts-to-js conversion,
type generation (the trace is always a sublist of that order), and on a
default fully-successful run it is exactly that order. -/
theorem c8_task_order (fl : Flags) (env : Env) :
    List.Sublist (runTasks fl env).trace fixedTaskOrder ∧
    (fl.yarnInstall = true → fl.typescript = false → env.resultIsSatisfied = true →
      env.appDirExists = false → env.installSucceeds = true →
      env.tsToJsSucceeds = true → env.genTypesSucceeds = true →
      (runTasks fl env).trace = fixedTaskOrder) := by
  constructor
  · cases hyi : fl.yarnInstall <;> cases hts : fl.typescript <;>
    cases how : fl.overwrite <;> cases hex : env.appDirExists <;>
    cases hsat : env.resultIsSatisfied <;> cases hin : env.installSucceeds <;>
    cases htj : env.tsToJsSucceeds <;> cases hgt : env.genTypesSucceeds <;>
    cases hen : decide (0 < env.appDirEntries) <;>
    simp [runTasks, hyi, hts, how, hex, hsat, hin, htj, hgt, hen, fixedTaskOrder]
  · intro h1 h2 h3 h4 h5 h6 h7
    simp [runTasks, h1, h2, h3, h4, h5, h6, h7, fixedTaskOrder]

theorem c8_task_order_witness :
    (runTasks ⟨true, false, false⟩
      ⟨"/tmp/redwood-app", false, 0, true, [], true, true, true⟩).trace = fixedTaskOrder :=
  (c8_task_order ⟨true, false, false⟩
    ⟨"/tmp/redwood-app", false, 0, true, [], true, true, true⟩).2
    rfl rfl rfl rfl rfl rfl rfl

/-! ### String lemmas for the targetDir computation -/

theorem map_dash_id (l : List Char) (h : ',' ∉ l) :
    l.map (fun c => if c = ',' then '-' else c) = l := by
  induction l with
  | nil => rfl
  | cons c cs ih =>
      have hc : ¬(c = ',') := fun e => h (by rw [e]; exact List.mem_cons_self _ _)
      have hcs : ',' ∉ cs := fun hm => h (List.mem_cons_of_mem _ hm)
      simp only [List.map_cons, if_neg hc, ih hcs]

theorem replaceCommas_append (a b : String) :
    replaceCommas (a ++ b) = replaceCommas a ++ replaceCommas b := by
  cases a with
  | mk la =>
      cases b with
      | mk lb => exact congrArg String.mk (List.map_append _ la lb)

theorem replaceCommas_of_no_comma (s : String) (h : ',' ∉ s.data) :
    replaceCommas s = s := by
  cases s with
  | mk l => exact congrArg String.mk (map_dash_id l h)

theorem targetDir_eq_dashJoin (args : List String) :
    (∀ a ∈ args, ',' ∉ a.data) → targetDir args = specDashJoined args := by
  induction args with
  | nil => intro _; rfl
  | cons a rest ih =>
      intro h
      have ha : ',' ∉ a.data := h a (List.mem_cons_self _ _)
      have hrest : ∀ x ∈ rest, ',' ∉ x.data :=
        fun x hx => h x (List.mem_cons_of_mem _ hx)
      cases rest with
      | nil =>
          show replaceCommas a = a
          exact replaceCommas_of_no_comma a ha
      | cons b rest2 =>
          show replaceCommas (a ++ "," ++ jsStringOfArray (b :: rest2))
            = a ++ "-" ++ specDashJoined (b :: rest2)
          rw [replaceCommas_append, replaceCommas_append,
            replaceCommas_of_no_comma a ha]
          have hcomma : replaceCommas "," = "-" := rfl
          rw [hcomma, ← ih hrest]
          rfl

theorem targetDir_two_ne_empty (a b : String) (rest : List String) :
    targetDir (a :: b :: rest) ≠ "" := by
  intro he
  have hlen : (targetDir (a :: b :: rest)).data.length = 0 := by
    rw [he]
    rfl
  have hform : (targetDir (a :: b :: rest)).data.length
      = ((a ++ "," ++ jsStringOfArray (b :: rest)).data.map
          (fun c => if c = ',' then '-' else c)).length := rfl
  rw [List.length_map, String.data_append, String.data_append,
    List.length_append, List.length_append] at hform
  have : (",".data.length) = 1 := rfl
  omega

/-- Claim C10: when more than one positional argument is supplied, the
invocation is not rejected: the arguments are joined with '-' into a single
target directory name and the run proceeds against it (the prologue does not
take the usage/exit branch). -/
theorem c10_multiple_args (args : List String) (fl : Flags) (env : Env)
    (h2 : 2 ≤ args.length) (hnc : ∀ a ∈ args, ',' ∉ a.data) :
    targetDir args = specDashJoined args ∧
    scaffolderMain args fl env = runTasks fl env := by
  refine ⟨targetDir_eq_dashJoin args hnc, ?_⟩
  rcases args with _ | ⟨a, _ | ⟨b, rest⟩⟩
  · simp at h2
  · simp at h2
  · simp only [scaffolderMain, if_neg (targetDir_two_ne_empty a b rest)]

theorem c10_multiple_args_witness :
    targetDir ["a", "b"] = specDashJoined ["a", "b"] ∧
    scaffolderMain ["a", "b"] ⟨true, false, false⟩
        ⟨"/tmp/a-b", false, 0, true, [], true, true, true⟩
      = runTasks ⟨true, false, false⟩
        ⟨"/tmp/a-b", false, 0, true, [], true, true, true⟩ :=
  c10_multiple_args ["a", "b"] ⟨true, false, false⟩
    ⟨"/tmp/a-b", false, 0, true, [], true, true, true⟩ (by decide) (by decide)
